import Mathlib

/-!
# Verification of the selve-chat-frontend streaming chat orchestrator

This file is a shallow embedding, in Lean 4, of the client-side
session/streaming orchestration layer of the repository:

* `src/app/hooks/useChat.ts` (primary variant, lines 1-891): the chat
  orchestrator — `sendMessage`'s stream read loop, `processSSELine`,
  `finalizeStream`, `switchSession`, `deleteSession`,
  `createNewConversation`, `cancelStream`;
* `src/app/hooks/useRetry.ts`: `executeWithRetry` and `isRetryableError`;
* `src/app/hooks/useTypewriter.ts`: `useStreamingTypewriter`'s animation
  step.

Modelling conventions:

* JavaScript strings are embedded as `List Nat` of Unicode code points;
  string truthiness is non-emptiness, number truthiness is `≠ 0`.
* The platform `TextDecoder` (UTF-8, `stream: true`) is modelled by an
  incremental byte decoder that carries undecoded trailing bytes across
  reads; it agrees with `TextDecoder` on well-formed UTF-8 input, which is
  the domain of the theorems that use it.
* The platform `JSON.parse` is modelled as an oracle
  `parse : List Nat → Option Envelope` returning exactly the fields that
  `processSSELine` inspects; a parse failure (`none`) models the thrown
  exception that the code swallows.
* React `setState` calls become record updates on an explicit state
  record; `mountedRef.current` is taken to be `true` (the component is
  mounted for the duration of the runs considered).  `setTimeout`-based
  auto-clear timers (security warning, compression flag, error banner)
  are real-time behaviour and are outside the state transitions modelled
  here.
-/

/-! ## Code-point list helpers (JS string operations) -/

/-- Embed a Lean string literal as a list of Unicode code points, the
representation used for JavaScript strings throughout this file. -/
def str (s : String) : List Nat := s.toList.map Char.toNat

/-- ASCII whitespace recognised by the model of `String.prototype.trim`
(space, tab, LF, VT, FF, CR — the characters that actually occur in the
SSE protocol). -/
def isWsChar (c : Nat) : Bool := c = 32 || (9 ≤ c && c ≤ 13)

/-- JS truthiness of `s.trim()`: the string has at least one
non-whitespace character. -/
def hasNonWs (l : List Nat) : Bool := l.any (fun c => !isWsChar c)

/-- Model of `String.prototype.trim`: strip whitespace from both ends. -/
def trimWs (l : List Nat) : List Nat :=
  ((l.dropWhile isWsChar).reverse.dropWhile isWsChar).reverse

/-- Model of `String.prototype.startsWith`. -/
def startsWithL : List Nat → List Nat → Bool
  | _, [] => true
  | [], _ :: _ => false
  | a :: as, b :: bs => a == b && startsWithL as bs

/-- Model of `String.prototype.includes`. -/
def includesL : List Nat → List Nat → Bool
  | hay, nd =>
    match hay with
    | [] => nd.isEmpty
    | _ :: t => startsWithL hay nd || includesL t nd

/-- Model of `String.prototype.toLowerCase` restricted to ASCII (the
substrings `isRetryableError` tests are ASCII). -/
def toLowerL (l : List Nat) : List Nat :=
  l.map (fun c => if 65 ≤ c && c ≤ 90 then c + 32 else c)

/-! ## The platform `TextDecoder` (UTF-8, `stream: true`)

`sendMessage` reads `Uint8Array` chunks and feeds them to a single
`TextDecoder` instance with `{ stream: true }`, which buffers the bytes of
an incomplete trailing character across `decode` calls.  We model bytes as
`Nat` (values < 256 in well-formed input) and decode by the standard UTF-8
length-from-lead-byte scheme.  -/

/-- Standard UTF-8 encoding of a Unicode code point (< 0x110000). -/
def utf8Encode (n : Nat) : List Nat :=
  if n < 0x80 then [n]
  else if n < 0x800 then [0xC0 + n / 0x40, 0x80 + n % 0x40]
  else if n < 0x10000 then
    [0xE0 + n / 0x1000, 0x80 + (n / 0x40) % 0x40, 0x80 + n % 0x40]
  else
    [0xF0 + n / 0x40000, 0x80 + (n / 0x1000) % 0x40,
     0x80 + (n / 0x40) % 0x40, 0x80 + n % 0x40]

/-- UTF-8 of a whole string. -/
def utf8EncodeAll (cs : List Nat) : List Nat := cs.flatMap utf8Encode

/-- Number of bytes of the UTF-8 sequence introduced by lead byte `b`. -/
def utf8Len (b : Nat) : Nat :=
  if b < 0x80 then 1
  else if b < 0xE0 then 2
  else if b < 0xF0 then 3
  else 4

/-- Reassemble a code point from one complete UTF-8 byte sequence. -/
def utf8Val : List Nat → Nat
  | [b] => b
  | [b1, b2] => (b1 - 0xC0) * 0x40 + (b2 - 0x80)
  | [b1, b2, b3] => (b1 - 0xE0) * 0x1000 + (b2 - 0x80) * 0x40 + (b3 - 0x80)
  | [b1, b2, b3, b4] =>
      (b1 - 0xF0) * 0x40000 + (b2 - 0x80) * 0x1000 + (b3 - 0x80) * 0x40 +
        (b4 - 0x80)
  | _ => 0

theorem utf8Len_pos (b : Nat) : 1 ≤ utf8Len b := by
  unfold utf8Len; split <;> [omega; skip]; split <;> [omega; skip]
  split <;> omega

/-- Greedy incremental UTF-8 decode: return the decoded code points of the
maximal complete prefix, and the undecoded trailing bytes (the state a
streaming `TextDecoder` carries to the next chunk).  A sequence of
`utf8Len b` bytes led by `b` is consumed as one code point; fewer
remaining bytes than the lead byte announces means an incomplete trailing
character, kept as leftover. -/
def utf8DecodeInc : List Nat → List Nat × List Nat
  | [] => ([], [])
  | b :: rest =>
    if rest.length + 1 < utf8Len b then ([], b :: rest)
    else
      let r := utf8DecodeInc (rest.drop (utf8Len b - 1))
      (utf8Val (b :: rest.take (utf8Len b - 1)) :: r.1, r.2)
termination_by l => l.length
decreasing_by
  simp only [List.length_drop, List.length_cons]
  omega

/-- Feeding `l₁ ++ l₂` to the decoder in one call is the same as feeding
`l₁`, carrying the leftover, and then feeding the leftover plus `l₂`.
This is the heart of chunk-split invariance: the decoder state (leftover
bytes) makes decoding compositional, for every byte sequence. -/
theorem utf8DecodeInc_append (l₁ l₂ : List Nat) :
    utf8DecodeInc (l₁ ++ l₂) =
      ((utf8DecodeInc l₁).1 ++ (utf8DecodeInc ((utf8DecodeInc l₁).2 ++ l₂)).1,
       (utf8DecodeInc ((utf8DecodeInc l₁).2 ++ l₂)).2) := by
  have main : ∀ n (l : List Nat), l.length ≤ n →
      utf8DecodeInc (l ++ l₂) =
        ((utf8DecodeInc l).1 ++ (utf8DecodeInc ((utf8DecodeInc l).2 ++ l₂)).1,
         (utf8DecodeInc ((utf8DecodeInc l).2 ++ l₂)).2) := by
    intro n
    induction n with
    | zero =>
        intro l hl
        have : l = [] := List.eq_nil_of_length_eq_zero (Nat.le_zero.mp hl)
        subst this
        simp [utf8DecodeInc]
    | succ n ih =>
        intro l hl
        match l with
        | [] => simp [utf8DecodeInc]
        | b :: rest =>
          by_cases hsplit : rest.length + 1 < utf8Len b
          · -- incomplete character: everything stays in the leftover
            rw [show utf8DecodeInc (b :: rest) = ([], b :: rest) by
              rw [utf8DecodeInc]; simp [hsplit]]
            simp
          · -- at least one complete character is available in `l`
            have hk : utf8Len b - 1 ≤ rest.length := by omega
            have hsplit' : ¬ ((rest ++ l₂).length + 1 < utf8Len b) := by
              simp only [List.length_append]; omega
            have htake : (rest ++ l₂).take (utf8Len b - 1) = rest.take (utf8Len b - 1) :=
              List.take_append_of_le_length hk
            have hdrop : (rest ++ l₂).drop (utf8Len b - 1) = rest.drop (utf8Len b - 1) ++ l₂ :=
              List.drop_append_of_le_length hk
            have e1 : utf8DecodeInc (b :: rest) =
                (utf8Val (b :: rest.take (utf8Len b - 1)) ::
                   (utf8DecodeInc (rest.drop (utf8Len b - 1))).1,
                 (utf8DecodeInc (rest.drop (utf8Len b - 1))).2) := by
              rw [utf8DecodeInc.eq_def]
              simp only [hsplit, if_neg, not_false_iff]
            have e2 : utf8DecodeInc (b :: (rest ++ l₂)) =
                (utf8Val (b :: rest.take (utf8Len b - 1)) ::
                   (utf8DecodeInc (rest.drop (utf8Len b - 1) ++ l₂)).1,
                 (utf8DecodeInc (rest.drop (utf8Len b - 1) ++ l₂)).2) := by
              rw [utf8DecodeInc.eq_def]
              simp only [hsplit', if_neg, not_false_iff]
              rw [htake, hdrop]
            have hlen : (rest.drop (utf8Len b - 1)).length ≤ n := by
              simp only [List.length_drop, List.length_cons] at *
              omega
            rw [List.cons_append, e2, e1, ih _ hlen]
            simp
  exact main l₁.length l₁ (le_refl _)

/-- Decoding the UTF-8 bytes of one code point followed by anything else
recovers the code point and proceeds on the remainder. -/
theorem utf8DecodeInc_encode_cons (n : Nat) (h : n < 0x110000) (r : List Nat) :
    utf8DecodeInc (utf8Encode n ++ r) =
      (n :: (utf8DecodeInc r).1, (utf8DecodeInc r).2) := by
  by_cases h1 : n < 0x80
  · have henc : utf8Encode n = [n] := by rw [utf8Encode]; simp [h1]
    have hL : utf8Len n = 1 := by rw [utf8Len]; simp [h1]
    rw [henc, List.cons_append, List.nil_append, utf8DecodeInc.eq_def]
    simp [hL, utf8Val]
  · by_cases h2 : n < 0x800
    · have henc : utf8Encode n = [0xC0 + n / 0x40, 0x80 + n % 0x40] := by
        rw [utf8Encode]; simp [h1, h2]
      have hL : utf8Len (0xC0 + n / 0x40) = 2 := by
        unfold utf8Len
        rw [if_neg (by omega), if_pos (by omega)]
      have hval : utf8Val [0xC0 + n / 0x40, 0x80 + n % 0x40] = n := by
        simp only [utf8Val]; omega
      rw [henc, List.cons_append, List.cons_append, List.nil_append,
        utf8DecodeInc.eq_def]
      simp [hL, hval]
    · by_cases h3 : n < 0x10000
      · have henc : utf8Encode n =
            [0xE0 + n / 0x1000, 0x80 + (n / 0x40) % 0x40, 0x80 + n % 0x40] := by
          rw [utf8Encode]; simp [h1, h2, h3]
        have hL : utf8Len (0xE0 + n / 0x1000) = 3 := by
          unfold utf8Len
          rw [if_neg (by omega), if_neg (by omega), if_pos (by omega)]
        have hval : utf8Val
            [0xE0 + n / 0x1000, 0x80 + (n / 0x40) % 0x40, 0x80 + n % 0x40] = n := by
          simp only [utf8Val]; omega
        rw [henc, List.cons_append, List.cons_append, List.cons_append,
          List.nil_append, utf8DecodeInc.eq_def]
        simp [hL, hval]
      · have henc : utf8Encode n =
            [0xF0 + n / 0x40000, 0x80 + (n / 0x1000) % 0x40,
             0x80 + (n / 0x40) % 0x40, 0x80 + n % 0x40] := by
          rw [utf8Encode]; simp [h1, h2, h3]
        have hL : utf8Len (0xF0 + n / 0x40000) = 4 := by
          unfold utf8Len
          rw [if_neg (by omega), if_neg (by omega), if_neg (by omega)]
        have hval : utf8Val
            [0xF0 + n / 0x40000, 0x80 + (n / 0x1000) % 0x40,
             0x80 + (n / 0x40) % 0x40, 0x80 + n % 0x40] = n := by
          simp only [utf8Val]; omega
        rw [henc, List.cons_append, List.cons_append, List.cons_append,
          List.cons_append, List.nil_append, utf8DecodeInc.eq_def]
        simp [hL, hval]

/-- Decoding a fully well-formed byte stream recovers the string, with no
leftover bytes. -/
theorem utf8DecodeInc_encodeAll (cs : List Nat) (h : ∀ c ∈ cs, c < 0x110000) :
    utf8DecodeInc (utf8EncodeAll cs) = (cs, []) := by
  induction cs with
  | nil => simp [utf8EncodeAll, utf8DecodeInc]
  | cons c cs ih =>
      have hc : c < 0x110000 := h c (List.mem_cons_self c cs)
      have hcs : ∀ x ∈ cs, x < 0x110000 := fun x hx => h x (List.mem_cons_of_mem c hx)
      rw [show utf8EncodeAll (c :: cs) = utf8Encode c ++ utf8EncodeAll cs from by
        simp [utf8EncodeAll]]
      rw [utf8DecodeInc_encode_cons c hc, ih hcs]

/-! ## `buffer.split('\n')` with the last (possibly incomplete) line kept

The read loop does `const lines = buffer.split('\n'); buffer = lines.pop()
|| ''` and processes the popped-off complete lines in order.  `splitNL l`
returns exactly that pair: the complete lines (all parts of
`l.split('\n')` except the last) and the trailing partial line (the last
part, which JS keeps in `buffer`). -/
def splitNL : List Nat → List (List Nat) × List Nat
  | [] => ([], [])
  | c :: rest =>
    let r := splitNL rest
    if c = 10 then ([] :: r.1, r.2)
    else
      match r.1 with
      | [] => ([], c :: r.2)
      | l :: ls => ((c :: l) :: ls, r.2)

theorem splitNL_nl (rest : List Nat) :
    splitNL (10 :: rest) = ([] :: (splitNL rest).1, (splitNL rest).2) := by
  rw [splitNL]
  simp

theorem splitNL_cons_ne (c : Nat) (rest : List Nat) (h : ¬ c = 10) :
    splitNL (c :: rest) =
      (match (splitNL rest).1 with
       | [] => ([], c :: (splitNL rest).2)
       | l :: ls => ((c :: l) :: ls, (splitNL rest).2)) := by
  rw [splitNL]
  simp only [h, if_neg, not_false_iff]

/-- Splitting a concatenation: the complete lines of `x ++ b` are the
complete lines of `x` followed by the complete lines of the partial line
of `x` glued to `b`, and the partial remainders agree.  This is exactly
why carrying the unterminated tail in `buffer` across reads makes line
splitting chunking-invariant. -/
theorem splitNL_append (x b : List Nat) :
    splitNL (x ++ b) =
      ((splitNL x).1 ++ (splitNL ((splitNL x).2 ++ b)).1,
       (splitNL ((splitNL x).2 ++ b)).2) := by
  induction x with
  | nil => simp [splitNL]
  | cons c x' ih =>
      by_cases hc : c = 10
      · subst hc
        rw [List.cons_append, splitNL_nl, splitNL_nl, ih]
        simp
      · rw [List.cons_append, splitNL_cons_ne c (x' ++ b) hc, ih,
          splitNL_cons_ne c x' hc]
        cases hx : (splitNL x').1 with
        | nil =>
            simp only [hx, List.nil_append]
            rw [List.cons_append, splitNL_cons_ne c ((splitNL x').2 ++ b) hc]
        | cons l ls =>
            simp only [hx]
            simp

/-! ## The `sendMessage` stream read loop (useChat.ts lines 731-754)

```
while (true) {
  const { done, value } = await reader.read()
  if (done) {
    if (buffer.trim()) { processSSELine(buffer) }
    if (!streamFinalized) { await finalizeStream() }
    break
  }
  buffer += decoder.decode(value, { stream: true })
  const lines = buffer.split('\n')
  buffer = lines.pop() || ''
  for (const line of lines) { processSSELine(line) }
}
```

`ReadLoopState` holds the `TextDecoder`'s pending bytes, the string
`buffer`, and the ordered list of lines handed to `processSSELine` so
far.  `readChunk` is one loop iteration on a `value`; `readDone` is the
`done` branch's line processing (the trailing buffer is processed iff its
trim is truthy). -/
structure ReadLoopState where
  leftover : List Nat
  buffer : List Nat
  lines : List (List Nat)
deriving Repr, DecidableEq

def readChunk (st : ReadLoopState) (chunk : List Nat) : ReadLoopState :=
  let d := utf8DecodeInc (st.leftover ++ chunk)
  let parts := splitNL (st.buffer ++ d.1)
  { leftover := d.2, buffer := parts.2, lines := st.lines ++ parts.1 }

def readDone (st : ReadLoopState) : List (List Nat) :=
  st.lines ++ (if hasNonWs st.buffer then [st.buffer] else [])

def initReadLoop : ReadLoopState := ⟨[], [], []⟩

/-- The ordered sequence of lines fed to `processSSELine` by a whole run
of the read loop over the given sequence of network chunks. -/
def runReadLoop (chunks : List (List Nat)) : List (List Nat) :=
  readDone (chunks.foldl readChunk initReadLoop)

/-- One loop iteration over `a ++ b` equals two iterations over `a` then
`b`: the decoder leftover and the line buffer together form a state that
makes the loop body compositional in the byte stream. -/
theorem readChunk_append (st : ReadLoopState) (a b : List Nat) :
    readChunk st (a ++ b) = readChunk (readChunk st a) b := by
  simp only [readChunk]
  rw [← List.append_assoc st.leftover a b, utf8DecodeInc_append (st.leftover ++ a) b]
  rw [show st.buffer ++ ((utf8DecodeInc (st.leftover ++ a)).1 ++
        (utf8DecodeInc ((utf8DecodeInc (st.leftover ++ a)).2 ++ b)).1) =
      (st.buffer ++ (utf8DecodeInc (st.leftover ++ a)).1) ++
        (utf8DecodeInc ((utf8DecodeInc (st.leftover ++ a)).2 ++ b)).1 from
    (List.append_assoc _ _ _).symm]
  rw [splitNL_append (st.buffer ++ (utf8DecodeInc (st.leftover ++ a)).1) _]
  simp [List.append_assoc]

theorem foldl_readChunk_join (chunks : List (List Nat)) (a : List Nat)
    (st : ReadLoopState) :
    chunks.foldl readChunk (readChunk st a) = readChunk st (a ++ chunks.flatten) := by
  induction chunks generalizing a with
  | nil => simp
  | cons c t ih =>
      rw [List.foldl_cons, ← readChunk_append st a c, ih (a ++ c)]
      simp [List.append_assoc]

theorem foldl_readChunk (chunks : List (List Nat)) :
    chunks.foldl readChunk initReadLoop = readChunk initReadLoop chunks.flatten := by
  cases chunks with
  | nil =>
      simp [readChunk, initReadLoop, utf8DecodeInc, splitNL]
  | cons c t =>
      rw [List.foldl_cons, foldl_readChunk_join t c initReadLoop]
      simp

/-! ## Chat orchestrator data model (useChat.ts) -/

inductive Role where
  | user
  | assistant
deriving Repr, DecidableEq

/-- Model of the `Message` interface (useChat.ts lines 7-11); the optional `id` is
never read by the orchestrator logic and is omitted. -/
structure Message where
  role : Role
  content : List Nat
deriving Repr, DecidableEq

/-- Model of the `Citation` interface (SourceCitations.tsx lines 5-14), restricted to
the fields with data; the orchestrator never inspects citations, it only
stores them. -/
structure Citation where
  title : List Nat := []
  source : List Nat := []
  url : Option (List Nat) := none
  relevance : Option Nat := none
deriving Repr, DecidableEq

/-- Model of `ThinkingStatus` (ThinkingIndicator.tsx): status tag, human-readable
message, and the raw `details` payload (kept opaque; `{}` is `[]`). -/
structure ThinkingStatusV where
  status : List Nat
  message : List Nat
  details : List Nat
deriving Repr, DecidableEq

/-- The result of `JSON.parse` on one `data:` payload, restricted to the
fields `processSSELine` (useChat.ts lines 643-729) inspects.  A field the
payload does not carry is `none` (i.e. `undefined`); `compression_needed`
and `done` are recorded as their JS truthiness. -/
structure Envelope where
  etype : Option (List Nat) := none
  status : Option (List Nat) := none
  message : Option (List Nat) := none
  details : Option (List Nat) := none
  content : Option (List Nat) := none
  chunk : Option (List Nat) := none
  citations : Option (List Citation) := none
  compression_needed : Bool := false
  total_tokens : Option Nat := none
  done : Bool := false
  expires_at : Option (List Nat) := none
deriving Repr, DecidableEq

/-- JS truthiness of a string-valued field (`undefined`/`null`/`''` are
falsy). -/
def jsStr : Option (List Nat) → Bool
  | some s => !s.isEmpty
  | none => false

/-- JS `a || b` on two string-valued fields. -/
def jsOrStr (a b : Option (List Nat)) : Option (List Nat) :=
  if jsStr a then a else b

/-- JS `a || d` where `d` is a non-empty string literal default. -/
def jsStrOr (a : Option (List Nat)) (d : List Nat) : List Nat :=
  match a with
  | some s => if s.isEmpty then d else s
  | none => d

/-- The orchestrator state: the React state of `useChat` (lines 81-105)
together with the locals of the running `sendMessage` invocation (lines
573-591: `isFirstMessage`, `currentMessageIndex`, `fullContent`,
`streamFinalized`, `receivedBan`, `receivedWarning`).  `finalizeRuns` is
pure instrumentation counting executions of `finalizeStream`'s body (it
mirrors no source variable and influences nothing). -/
structure ChatState where
  messages : List Message
  isLoading : Bool
  streamingContent : List Nat
  sessionId : Option (List Nat)
  isPendingNewSession : Bool
  persistedSessionId : Option (List Nat)
  error : Option (List Nat)
  messageCitations : Nat → Option (List Citation)
  thinkingStatus : Option ThinkingStatusV
  compressionNeeded : Bool
  totalTokens : Option Nat
  isBanned : Bool
  banExpiresAt : Option (List Nat)
  securityWarning : Option (List Nat)
  fullContent : List Nat
  streamFinalized : Bool
  receivedBan : Bool
  receivedWarning : Bool
  currentMessageIndex : Nat
  isFirstMessage : Bool
  finalizeRuns : Nat

/-- The synchronous prelude of `sendMessage` after the session has been
ensured (useChat.ts lines 573-591): capture `isFirstMessage` and
`currentMessageIndex` from the closure's `messages`, optimistically
append the user message, raise the loading flag, clear buffer/error/
warning, seed the thinking status, and reset the stream-scoped locals. -/
def sendStart (s : ChatState) (trimmedMessage : List Nat) : ChatState :=
  { s with
    isFirstMessage := s.messages.length == 0
    currentMessageIndex := s.messages.length
    messages := s.messages ++ [⟨Role.user, trimmedMessage⟩]
    isLoading := true
    streamingContent := []
    error := none
    securityWarning := none
    thinkingStatus :=
      some ⟨str "retrieving_context", str "Processing your message...", []⟩
    fullContent := []
    streamFinalized := false
    receivedBan := false
    receivedWarning := false
    finalizeRuns := 0 }

/-- Model of `finalizeStream` (useChat.ts lines 593-612).  The guard returns
immediately when already finalized; otherwise the body commits the
content (only when its trim is truthy), clears the streaming buffer and
thinking status, and drops the loading flag.  The title-generation /
session-list side effects are backend calls with no orchestrator-state
footprint modelled here. -/
def finalizeStream (s : ChatState) (content : List Nat) : ChatState :=
  if s.streamFinalized then s
  else
    { s with
      streamFinalized := true
      finalizeRuns := s.finalizeRuns + 1
      messages :=
        if hasNonWs content then s.messages ++ [⟨Role.assistant, content⟩]
        else s.messages
      streamingContent := []
      thinkingStatus := none
      isLoading := false }

/-- Model of `// Handle ban` (useChat.ts lines 653-659). -/
def handleBan (parsed : Envelope) (s : ChatState) : ChatState :=
  if parsed.etype = some (str "ban") then
    { s with
      receivedBan := true
      isBanned := true
      banExpiresAt := if jsStr parsed.expires_at then parsed.expires_at else none }
  else s

/-- Model of `// Handle warning` (lines 661-672; the 10s auto-clear timer is
real-time behaviour, out of model). -/
def handleWarning (parsed : Envelope) (s : ChatState) : ChatState :=
  if parsed.etype = some (str "warning") then
    { s with
      receivedWarning := true
      securityWarning :=
        some (jsStrOr parsed.message (str "Suspicious patterns detected.")) }
  else s

/-- Model of `// Handle status updates` (lines 679-686).  `type === 'error'`
(lines 674-677) only logs to the console and changes no state. -/
def handleStatus (parsed : Envelope) (s : ChatState) : ChatState :=
  if parsed.etype = some (str "status") then
    { s with thinkingStatus := some ⟨jsStrOr parsed.status (str "generating"),
        jsStrOr parsed.message (str "Processing..."), parsed.details.getD []⟩ }
  else s

/-- Model of `// Handle content chunks` (lines 688-697): `parsed.content ||
parsed.chunk`, append to `fullContent`, publish it as
`streamingContent`, and clear the thinking status once content flows. -/
def handleContent (parsed : Envelope) (s : ChatState) : ChatState :=
  let content := jsOrStr parsed.content parsed.chunk
  if jsStr content then
    let full := s.fullContent ++ content.getD []
    { s with
      fullContent := full
      streamingContent := full
      thinkingStatus := if full.length > 0 then none else s.thinkingStatus }
  else s

/-- Model of `// Handle citations` (lines 699-705): any `citations` value
(arrays are truthy in JS, even empty ones) is recorded under the
captured `currentMessageIndex + 1`. -/
def handleCitations (parsed : Envelope) (s : ChatState) : ChatState :=
  match parsed.citations with
  | some cits =>
      { s with messageCitations := fun i =>
          if i = s.currentMessageIndex + 1 then some cits
          else s.messageCitations i }
  | none => s

/-- Model of `// Handle compression warning` (lines 707-715; auto-clear timer out
of model). -/
def handleCompression (parsed : Envelope) (s : ChatState) : ChatState :=
  if parsed.compression_needed then { s with compressionNeeded := true } else s

/-- Model of `// Handle token count` (lines 717-720): `parsed.total_tokens` is
truthiness-checked, so `0` is not stored. -/
def handleTokens (parsed : Envelope) (s : ChatState) : ChatState :=
  match parsed.total_tokens with
  | some n => if n ≠ 0 then { s with totalTokens := some n } else s
  | none => s

/-- Model of `// Handle done signal` (lines 722-725). -/
def handleDone (parsed : Envelope) (s : ChatState) : ChatState :=
  if parsed.done && !s.streamFinalized then finalizeStream s s.fullContent else s

/-- The body of `processSSELine`'s `try` block after a successful
`JSON.parse` (lines 651-725): the handlers run in source order on the
same `parsed` value. -/
def processParsed (parsed : Envelope) (s : ChatState) : ChatState :=
  handleDone parsed (handleTokens parsed (handleCompression parsed
    (handleCitations parsed (handleContent parsed (handleStatus parsed
      (handleWarning parsed (handleBan parsed s)))))))

/-- Model of `processSSELine` (useChat.ts lines 643-729), parameterised by the
platform `JSON.parse` restricted to the inspected fields (`parse`
returning `none` models the thrown exception that the empty `catch`
swallows, leaving the state untouched). -/
def processSSELine (parse : List Nat → Option Envelope) (s : ChatState)
    (line : List Nat) : ChatState :=
  let trimmedLine := trimWs line
  if ¬ startsWithL trimmedLine (str "data: ") then s
  else
    let data := trimmedLine.drop 6
    if data = str "[DONE]" then s
    else
      match parse data with
      | none => s
      | some parsed => processParsed parsed s

/-- The `for (const line of lines) processSSELine(line)` part of the read
loop, over the full ordered line sequence of a stream. -/
def processLines (parse : List Nat → Option Envelope) (s : ChatState)
    (lines : List (List Nat)) : ChatState :=
  lines.foldl (processSSELine parse) s

/-- The `done` branch's trailing `if (!streamFinalized) finalizeStream()`
(useChat.ts lines 740-743). -/
def finishRead (s : ChatState) : ChatState :=
  if ¬ s.streamFinalized then finalizeStream s s.fullContent else s

/-- A whole successful `sendMessage` stream consumption: process every
line the read loop hands over (the trailing buffer line included, as
`runReadLoop` returns it), then the reader-exhaustion finalization. -/
def runSend (parse : List Nat → Option Envelope) (s : ChatState)
    (lines : List (List Nat)) : ChatState :=
  finishRead (processLines parse s lines)

/-! ## Terminal transitions of a send (useChat.ts) -/

/-- The non-abort `catch` branch of `sendMessage` (lines 766-787):
surface the error, seed an error thinking-status, append the fallback
apologetic assistant message, clear the buffer, drop the loading flag.
(The 5s auto-clear timer is real-time behaviour, out of model.) -/
def streamErrorState (s : ChatState) (errorMessage : List Nat) : ChatState :=
  { s with
    error := some (str "Failed to get response: " ++ errorMessage)
    thinkingStatus := some ⟨str "error", str "Something went wrong", []⟩
    messages := s.messages ++
      [⟨Role.assistant, str "Sorry, I encountered an error. Please try again."⟩]
    streamingContent := []
    isLoading := false }

/-- The `AbortError` branch of `sendMessage`'s `catch` (lines 759-764):
silently drop the loading flag and thinking status and return. -/
def abortHandler (s : ChatState) : ChatState :=
  { s with isLoading := false, thinkingStatus := none }

/-- Model of `cancelStream` (lines 828-833): abort the in-flight request and clear
loading/thinking/buffer state. -/
def cancelStream (s : ChatState) : ChatState :=
  { s with isLoading := false, thinkingStatus := none, streamingContent := [] }

/-- The transcript a successful `restoreSession` returns for the session
being switched to. -/
structure RestoredSession where
  id : List Nat
  messages : List Message

/-- The state updates of `switchSession` once `restoreSession` succeeded
(lines 460-469): adopt the restored transcript and clear
buffer/thinking/error/warning. -/
def switchSessionApply (s : ChatState) (sess : RestoredSession) : ChatState :=
  { s with
    sessionId := some sess.id
    messages := sess.messages
    isPendingNewSession := false
    persistedSessionId := some sess.id
    streamingContent := []
    thinkingStatus := none
    error := none
    securityWarning := none }

/-- The terminal events of a send named by the specification: stream
completion (an actual `finalizeStream` invocation — the code only ever
calls it under a `!streamFinalized` guard), a stream error, a
user-triggered cancel (whose abort also fires the `AbortError` branch of
the in-flight send), and a session switch — which aborts the in-flight
send and then either installs the restored transcript
(`sessionSwitch sess`) or, when `restoreSession` returns `null`, changes
nothing further (`sessionSwitchFailed`): every state update of
`switchSession` (useChat.ts lines 460-469), the `setStreamingContent('')`
included, sits under `if (session && mountedRef.current)`. -/
inductive TerminalEvent where
  | completion
  | streamError (msg : List Nat)
  | userCancel
  | sessionSwitch (sess : RestoredSession)
  | sessionSwitchFailed

/-- Process one terminal event, composing the handlers exactly in the
order the code runs them.  On a failed-restore switch only the aborted
send's `AbortError` branch runs. -/
def applyTerminal (s : ChatState) : TerminalEvent → ChatState
  | .completion => finalizeStream s s.fullContent
  | .streamError msg => streamErrorState s msg
  | .userCancel => abortHandler (cancelStream s)
  | .sessionSwitch sess => switchSessionApply (abortHandler s) sess
  | .sessionSwitchFailed => abortHandler s

/-! ## Session operations with their backend-effect traces -/

/-- The outward effects of the session operations, recorded in program
order: aborting the in-flight request, and the backend calls. -/
inductive Effect where
  | abortInFlight
  | backendDeleteSession (id : List Nat)
  | backendCreateSession
  | backendListSessions
deriving Repr, DecidableEq

/-- Model of `createNewConversation` (useChat.ts lines 475-497): the two guards
return before anything happens; otherwise abort the in-flight stream,
reset to the deferred-creation state, and refresh the session list. -/
def createNewConversation (s : ChatState) : ChatState × List Effect :=
  if s.isPendingNewSession && s.messages.length == 0 then (s, [])
  else if jsStr s.sessionId && s.messages.length == 0 then (s, [])
  else
    ({ s with
        sessionId := none
        messages := []
        isPendingNewSession := true
        persistedSessionId := none
        streamingContent := []
        thinkingStatus := none
        error := none
        securityWarning := none },
     [Effect.abortInFlight, Effect.backendListSessions])

/-- Model of `deleteSession` (useChat.ts lines 500-521): always issues the backend
DELETE; on a 2xx response, if the deleted id is the active session,
transition to the deferred-creation state (empty history, no active id,
pending flag set, persisted id removed), then refresh the session list.
No replacement session is created. -/
def deleteSession (s : ChatState) (idToDelete : List Nat) (ok : Bool) :
    ChatState × List Effect :=
  if ok then
    if s.sessionId = some idToDelete then
      ({ s with
          sessionId := none
          messages := []
          isPendingNewSession := true
          persistedSessionId := none },
       [Effect.backendDeleteSession idToDelete, Effect.backendListSessions])
    else (s, [Effect.backendDeleteSession idToDelete, Effect.backendListSessions])
  else (s, [Effect.backendDeleteSession idToDelete])

/-! ## Retry executor (useRetry.ts) -/

/-- A thrown JS error value as `isRetryableError` (useRetry.ts lines
181-227) inspects it: `instanceof TypeError` / `instanceof Error` flags,
optional `status` / `statusCode` / `code` fields, and the message. -/
structure JsError where
  isTypeError : Bool := false
  isError : Bool := true
  status : Option Nat := none
  statusCode : Option Nat := none
  code : Option (List Nat) := none
  message : List Nat := []
deriving Repr, DecidableEq

/-- JS truthiness of a numeric field (`undefined`/`null`/`0` are falsy). -/
def natTruthy : Option Nat → Bool
  | some n => n != 0
  | none => false

/-- Model of `isRetryableError` (useRetry.ts lines 181-227).  The `if (!error)
return false` guard never fires for a thrown error object (objects are
truthy), and `typeof error === 'object'` always holds for one. -/
def isRetryableError (err : JsError) : Bool :=
  if err.isTypeError && includesL err.message (str "fetch") then true
  else if err.status == some 429 || err.statusCode == some 429 then true
  else if (natTruthy err.status && decide (500 ≤ err.status.getD 0))
      || (natTruthy err.statusCode && decide (500 ≤ err.statusCode.getD 0)) then true
  else if err.code == some (str "ECONNRESET") || err.code == some (str "ETIMEDOUT")
      || err.code == some (str "ENOTFOUND") then true
  else if err.isError &&
      (let message := toLowerL err.message
       includesL message (str "network") || includesL message (str "timeout")
        || includesL message (str "rate limit")
        || includesL message (str "too many requests")
        || includesL message (str "service unavailable")
        || includesL message (str "502") || includesL message (str "503")
        || includesL message (str "504")) then true
  else false

/-- Observable outcome of one `executeWithRetry` invocation: the attempt
numbers at which the operation was invoked, the backoff delays actually
waited, the final `retryState.attempt` value, and the returned value or
thrown error. -/
structure RetryResult (T : Type) where
  attemptsMade : List Nat
  sleeps : List Nat
  finalAttempt : Nat
  outcome : Except JsError T
deriving Repr

/-- The `throw lastError || new Error('Max retries reached')` after the
loop (useRetry.ts line 168; reachable only with `maxAttempts = 0`). -/
def maxRetriesError : JsError := { message := str "Max retries reached" }

/-- The `for (let attempt = 1; attempt <= maxAttempts; attempt++)` loop of
`executeWithRetry` (useRetry.ts lines 113-169).  Arguments past the
configuration: current `attempt`, current `delay`, `lastError`, and the
accumulated observables (attempts made, sleeps, last `retryState.attempt`
written). -/
def retryLoop {T : Type} (op : Nat → Except JsError T)
    (maxAttempts maxDelay backoffMultiplier : Nat) :
    Nat → Nat → Option JsError → List Nat → List Nat → Nat → RetryResult T :=
  fun attempt delay lastErr attempts sleeps stAttempt =>
    if _h : maxAttempts < attempt then
      ⟨attempts, sleeps, stAttempt, .error (lastErr.getD maxRetriesError)⟩
    else
      match op attempt with
      | .ok v => ⟨attempts ++ [attempt], sleeps, attempt, .ok v⟩
      | .error e =>
        if !isRetryableError e || decide (maxAttempts ≤ attempt) then
          ⟨attempts ++ [attempt], sleeps, attempt, .error e⟩
        else
          retryLoop op maxAttempts maxDelay backoffMultiplier (attempt + 1)
            (min (delay * backoffMultiplier) maxDelay) (some e)
            (attempts ++ [attempt]) (sleeps ++ [delay]) attempt
termination_by attempt => maxAttempts + 1 - attempt
decreasing_by omega

/-- Model of `executeWithRetry(fn)` with the hook's configuration; the operation is
given as the deterministic per-attempt outcome `op`. -/
def executeWithRetry {T : Type} (op : Nat → Except JsError T)
    (maxAttempts initialDelay maxDelay backoffMultiplier : Nat) : RetryResult T :=
  retryLoop op maxAttempts maxDelay backoffMultiplier 1 initialDelay none [] [] 0

/-! ## Typewriter scheduler (useTypewriter.ts, `useStreamingTypewriter`)

The hook's animation is driven by `requestAnimationFrame` and governed by
mutable cells (lines 198-207): `targetContentRef`, `displayedLengthRef`,
`isActiveRef`, plus the scheduled-frame handle `animationFrameRef`.  The
main effect (lines 230-299) re-runs on every `streamedContent` change;
its cleanup (lines 292-298) cancels the pending frame, and its body
restarts the loop only under the `!isActiveRef.current` guard (line
282).  `TWMachine` models exactly these cells; `skipToEnd` /
`skipToEndRef` is not exercised in the runs considered. -/
structure TWMachine where
  target : List Nat
  displayedLength : Nat
  displayedContent : List Nat
  isActive : Bool
  frameScheduled : Bool
deriving Repr, DecidableEq

/-- One due animation frame (`animate`, lines 248-279), which can only
run while a frame is scheduled: when caught up, stop the loop
(`isActiveRef.current = false`, no reschedule — lines 254-258);
otherwise reveal one character of the *latest* target and request the
next frame (lines 261-278).  The timing computation decides when a frame
is due, not what it does, and is not modelled. -/
def twFrame (m : TWMachine) : TWMachine :=
  if m.frameScheduled then
    if m.target.length ≤ m.displayedLength then
      { m with isActive := false, frameScheduled := false }
    else
      { m with
        displayedLength := m.displayedLength + 1
        displayedContent := m.target.take (m.displayedLength + 1)
        isActive := true
        frameScheduled := true }
  else m

/-- A change of the `streamedContent` prop: the ref-update effect (lines
225-227) stores the new target, the main effect's cleanup (lines
292-298) cancels the pending frame without touching `isActiveRef`, and
the re-run body takes either the empty-string reset branch (lines
232-238) or the restart guard `if (!isActiveRef.current &&
displayedLengthRef.current < streamedContent.length)` (line 282). -/
def twSetContent (m : TWMachine) (t : List Nat) : TWMachine :=
  if t = [] then
    { m with
      target := t
      displayedLength := 0
      displayedContent := []
      isActive := false
      frameScheduled := false }
  else
    let m1 := { m with target := t, frameScheduled := false }
    if !m1.isActive && decide (m1.displayedLength < t.length) then
      { m1 with isActive := true, frameScheduled := true }
    else m1

/-- Iterated due frames: every opportunity the browser ever gives the
animation to advance. -/
def twFrames (m : TWMachine) : Nat → TWMachine
  | 0 => m
  | k + 1 => twFrames (twFrame m) k

/-- The machine before any content arrives. -/
def twMachineInit : TWMachine := ⟨[], 0, [], false, false⟩

/-- A machine mid-animation: content `"ab"` arrived and one due frame
revealed `"a"`; the loop is active with the next frame scheduled. -/
def twMidAnim : TWMachine := twFrame (twSetContent twMachineInit (str "ab"))

/-! ## Citation attribution across overlapping sends (useChat.ts)

Each `sendMessage` invocation captures `currentMessageIndex =
messages.length` into its own closure (line 574) before appending the
user message and before any stream `await`; the citation handler (lines
700-705) keys the map with that captured constant plus one.  To reason
about overlapping sends — each with its own closure — the captured
constant is split out as `SendCtx`, and the global state a concurrent
send or switch can touch is `CitGlobal`. -/
structure CitGlobal where
  messages : List Message
  messageCitations : Nat → Option (List Citation)

structure SendCtx where
  currentMessageIndex : Nat

/-- The capture-and-append prefix of a send (lines 574-577). -/
def citSendStart (g : CitGlobal) (trimmedMessage : List Nat) :
    CitGlobal × SendCtx :=
  ({ g with messages := g.messages ++ [⟨Role.user, trimmedMessage⟩] },
   ⟨g.messages.length⟩)

/-- The citation handler of `processSSELine` (lines 700-705), run by the
send that owns `ctx`. -/
def recordCitations (g : CitGlobal) (ctx : SendCtx) (cits : List Citation) :
    CitGlobal :=
  { g with messageCitations := fun i =>
      if i = ctx.currentMessageIndex + 1 then some cits
      else g.messageCitations i }

/-- Interleaved operations while a send's stream is still in flight. -/
inductive CitEvent where
  | newSend (msg : List Nat)
  | switchTo (msgs : List Message)
  | citations (ctx : SendCtx) (cits : List Citation)

def citStep (g : CitGlobal) : CitEvent → CitGlobal
  | .newSend m => (citSendStart g m).1
  | .switchTo msgs => { g with messages := msgs }
  | .citations ctx cits => recordCitations g ctx cits

/-! ## Concrete fixtures for witnesses and counterexamples -/

/-- A concrete `JSON.parse` oracle for concrete runs.  The payload texts
are abbreviated stand-ins for JSON objects (`pa`/`pb` content deltas, a
whitespace-only delta `pws`, a `done` event); everything else — notably
the malformed `\x7bnot valid json` payload — fails to parse, exactly as
`JSON.parse` throws on it. -/
def toyParse : List Nat → Option Envelope := fun d =>
  if d = str "pa" then some { content := some (str "Hello") }
  else if d = str "pb" then some { content := some (str " world") }
  else if d = str "pws" then some { content := some (str " ") }
  else if d = str "pdone" then some { done := true }
  else none

/-- The orchestrator state of a freshly mounted hook with an empty
conversation. -/
def emptyChatState : ChatState := {
  messages := []
  isLoading := false
  streamingContent := []
  sessionId := none
  isPendingNewSession := false
  persistedSessionId := none
  error := none
  messageCitations := fun _ => none
  thinkingStatus := none
  compressionNeeded := false
  totalTokens := none
  isBanned := false
  banExpiresAt := none
  securityWarning := none
  fullContent := []
  streamFinalized := false
  receivedBan := false
  receivedWarning := false
  currentMessageIndex := 0
  isFirstMessage := false
  finalizeRuns := 0 }

/-- A state mid-stream: one user message sent, content accumulated in the
buffer, not yet finalized. -/
def midStreamState : ChatState :=
  { (sendStart emptyChatState (str "hi")) with
      fullContent := str "Hello"
      streamingContent := str "Hello" }

/-! ## Frame lemmas for the `processSSELine` handlers -/

/-- The control fields of the send that the non-`done` handlers never
touch. -/
def CtrlEq (t s : ChatState) : Prop :=
  t.error = s.error ∧ t.messages = s.messages ∧
  t.streamFinalized = s.streamFinalized ∧ t.finalizeRuns = s.finalizeRuns ∧
  t.isLoading = s.isLoading ∧ t.currentMessageIndex = s.currentMessageIndex

theorem ctrlEq_refl (s : ChatState) : CtrlEq s s := by
  unfold CtrlEq; exact ⟨rfl, rfl, rfl, rfl, rfl, rfl⟩

theorem ctrlEq_trans {a b c : ChatState} (h1 : CtrlEq a b) (h2 : CtrlEq b c) :
    CtrlEq a c := by
  unfold CtrlEq at *
  obtain ⟨e1, m1, f1, r1, l1, c1⟩ := h1
  obtain ⟨e2, m2, f2, r2, l2, c2⟩ := h2
  exact ⟨e1.trans e2, m1.trans m2, f1.trans f2, r1.trans r2, l1.trans l2, c1.trans c2⟩

theorem handleBan_ctrl (p : Envelope) (s : ChatState) : CtrlEq (handleBan p s) s := by
  unfold CtrlEq handleBan; split_ifs <;> simp

theorem handleWarning_ctrl (p : Envelope) (s : ChatState) :
    CtrlEq (handleWarning p s) s := by
  unfold CtrlEq handleWarning; split_ifs <;> simp

theorem handleStatus_ctrl (p : Envelope) (s : ChatState) :
    CtrlEq (handleStatus p s) s := by
  unfold CtrlEq handleStatus; split_ifs <;> simp

theorem handleContent_ctrl (p : Envelope) (s : ChatState) :
    CtrlEq (handleContent p s) s := by
  unfold CtrlEq handleContent
  by_cases h : jsStr (jsOrStr p.content p.chunk) = true <;> simp [h]

theorem handleCitations_ctrl (p : Envelope) (s : ChatState) :
    CtrlEq (handleCitations p s) s := by
  unfold CtrlEq handleCitations; cases p.citations <;> simp

theorem handleCompression_ctrl (p : Envelope) (s : ChatState) :
    CtrlEq (handleCompression p s) s := by
  unfold CtrlEq handleCompression; split_ifs <;> simp

theorem handleTokens_ctrl (p : Envelope) (s : ChatState) :
    CtrlEq (handleTokens p s) s := by
  unfold CtrlEq handleTokens
  cases p.total_tokens with
  | none => simp
  | some n => by_cases h : n = 0 <;> simp [h]

theorem handleBan_fullContent (p : Envelope) (s : ChatState) :
    (handleBan p s).fullContent = s.fullContent := by
  unfold handleBan; split_ifs <;> simp

theorem handleWarning_fullContent (p : Envelope) (s : ChatState) :
    (handleWarning p s).fullContent = s.fullContent := by
  unfold handleWarning; split_ifs <;> simp

theorem handleStatus_fullContent (p : Envelope) (s : ChatState) :
    (handleStatus p s).fullContent = s.fullContent := by
  unfold handleStatus; split_ifs <;> simp

theorem handleCitations_fullContent (p : Envelope) (s : ChatState) :
    (handleCitations p s).fullContent = s.fullContent := by
  unfold handleCitations; cases p.citations <;> simp

theorem handleCompression_fullContent (p : Envelope) (s : ChatState) :
    (handleCompression p s).fullContent = s.fullContent := by
  unfold handleCompression; split_ifs <;> simp

theorem handleTokens_fullContent (p : Envelope) (s : ChatState) :
    (handleTokens p s).fullContent = s.fullContent := by
  unfold handleTokens
  cases p.total_tokens with
  | none => simp
  | some n => by_cases h : n = 0 <;> simp [h]

theorem handleContent_fullContent (p : Envelope) (s : ChatState) :
    ∃ u, (handleContent p s).fullContent = s.fullContent ++ u := by
  unfold handleContent
  by_cases h : jsStr (jsOrStr p.content p.chunk) = true
  · exact ⟨(jsOrStr p.content p.chunk).getD [], by simp [h]⟩
  · exact ⟨[], by simp [h]⟩

/-- A content-delta envelope (`content` present and non-empty) appends
exactly its payload to the accumulating buffer. -/
theorem handleContent_delta (p : Envelope) (s : ChatState) (a : List Nat)
    (ha : p.content = some a) (hne : a ≠ []) :
    (handleContent p s).fullContent = s.fullContent ++ a := by
  have hor : jsOrStr p.content p.chunk = some a := by
    unfold jsOrStr jsStr
    simp [ha, List.isEmpty_iff, hne]
  unfold handleContent
  rw [hor]
  simp [jsStr, List.isEmpty_iff, hne]

theorem handleDone_fullContent (p : Envelope) (s : ChatState) :
    (handleDone p s).fullContent = s.fullContent := by
  unfold handleDone finalizeStream; split_ifs <;> simp

theorem handleDone_error (p : Envelope) (s : ChatState) :
    (handleDone p s).error = s.error := by
  unfold handleDone finalizeStream; split_ifs <;> simp

theorem handleDone_cmi (p : Envelope) (s : ChatState) :
    (handleDone p s).currentMessageIndex = s.currentMessageIndex := by
  unfold handleDone finalizeStream; split_ifs <;> simp

/-- Unfolding `finalizeStream`'s body when the guard passes. -/
theorem finalizeStream_run (s : ChatState) (c : List Nat)
    (h : s.streamFinalized = false) :
    finalizeStream s c = { s with
      streamFinalized := true
      finalizeRuns := s.finalizeRuns + 1
      messages :=
        if hasNonWs c then s.messages ++ [⟨Role.assistant, c⟩] else s.messages
      streamingContent := []
      thinkingStatus := none
      isLoading := false } := by
  unfold finalizeStream; simp [h]

/-- The `streamFinalized ||` early return of `finalizeStream`. -/
theorem finalizeStream_skip (s : ChatState) (c : List Nat)
    (h : s.streamFinalized = true) : finalizeStream s c = s := by
  unfold finalizeStream; simp [h]

/-- What one successfully parsed envelope does to the send: the error
and the captured index never change, the accumulating buffer only ever
grows, and either the finalization state is untouched (messages,
finalize count, loading flag included), or — exactly when the envelope
carries a truthy `done` and the send was not yet finalized — the body of
`finalizeStream` runs once. -/
theorem processParsed_step (p : Envelope) (s : ChatState) :
    (processParsed p s).error = s.error ∧
    (processParsed p s).currentMessageIndex = s.currentMessageIndex ∧
    (∃ u, (processParsed p s).fullContent = s.fullContent ++ u) ∧
    (((processParsed p s).streamFinalized = s.streamFinalized ∧
      (processParsed p s).finalizeRuns = s.finalizeRuns ∧
      (processParsed p s).messages = s.messages ∧
      (processParsed p s).isLoading = s.isLoading) ∨
     (p.done = true ∧ s.streamFinalized = false ∧
      (processParsed p s).streamFinalized = true ∧
      (processParsed p s).finalizeRuns = s.finalizeRuns + 1 ∧
      (processParsed p s).isLoading = false ∧
      (processParsed p s).streamingContent = [] ∧
      (processParsed p s).thinkingStatus = none ∧
      (processParsed p s).messages = s.messages ++
        (if hasNonWs ((processParsed p s).fullContent) = true
         then [⟨Role.assistant, (processParsed p s).fullContent⟩] else []))) := by
  unfold processParsed
  set s1 := handleBan p s with hs1
  set s2 := handleWarning p s1 with hs2
  set s3 := handleStatus p s2 with hs3
  set s4 := handleContent p s3 with hs4
  set s5 := handleCitations p s4 with hs5
  set s6 := handleCompression p s5 with hs6
  set s7 := handleTokens p s6 with hs7
  have c7 : CtrlEq s7 s :=
    ctrlEq_trans (hs7 ▸ handleTokens_ctrl p s6)
      (ctrlEq_trans (hs6 ▸ handleCompression_ctrl p s5)
        (ctrlEq_trans (hs5 ▸ handleCitations_ctrl p s4)
          (ctrlEq_trans (hs4 ▸ handleContent_ctrl p s3)
            (ctrlEq_trans (hs3 ▸ handleStatus_ctrl p s2)
              (ctrlEq_trans (hs2 ▸ handleWarning_ctrl p s1)
                (hs1 ▸ handleBan_ctrl p s))))))
  have e3 : s3.fullContent = s.fullContent := by
    rw [hs3, handleStatus_fullContent, hs2, handleWarning_fullContent, hs1,
      handleBan_fullContent]
  have f7 : ∃ u, s7.fullContent = s.fullContent ++ u := by
    obtain ⟨u, hu⟩ := handleContent_fullContent p s3
    refine ⟨u, ?_⟩
    rw [hs7, handleTokens_fullContent, hs6, handleCompression_fullContent, hs5,
      handleCitations_fullContent, hs4, hu, e3]
  obtain ⟨ce, cm, cf, cr, cl, cc⟩ := c7
  refine ⟨?_, ?_, ?_, ?_⟩
  · rw [handleDone_error, ce]
  · rw [handleDone_cmi, cc]
  · obtain ⟨u, hu⟩ := f7
    exact ⟨u, by rw [handleDone_fullContent, hu]⟩
  · by_cases hd : (p.done && !s7.streamFinalized) = true
    · have hpd : p.done = true ∧ s7.streamFinalized = false := by
        simpa [Bool.and_eq_true] using hd
      right
      have hsfin : s.streamFinalized = false := by rw [← cf]; exact hpd.2
      have hout : handleDone p s7 = { s7 with
          streamFinalized := true
          finalizeRuns := s7.finalizeRuns + 1
          messages := if hasNonWs s7.fullContent then
              s7.messages ++ [⟨Role.assistant, s7.fullContent⟩]
            else s7.messages
          streamingContent := []
          thinkingStatus := none
          isLoading := false } := by
        unfold handleDone
        rw [if_pos hd, finalizeStream_run s7 _ hpd.2]
      rw [hout]
      refine ⟨hpd.1, hsfin, by simp, by simp [cr], by simp, by simp, by simp, ?_⟩
      by_cases hnw : hasNonWs s7.fullContent = true <;> simp [hnw, cm]
    · left
      unfold handleDone
      rw [if_neg hd]
      exact ⟨cf, cr, cm, cl⟩

/-- Lift of `processParsed_step` to a raw line: a line that is not a
`data:` line, is the `[DONE]` sentinel, or has an unparsable payload
leaves the state untouched; otherwise the parsed envelope acts as in
`processParsed_step`, and the finalizing case can only arise from an
envelope with a truthy `done`. -/
theorem processSSELine_step (parse : List Nat → Option Envelope)
    (s : ChatState) (line : List Nat) :
    (processSSELine parse s line).error = s.error ∧
    (processSSELine parse s line).currentMessageIndex = s.currentMessageIndex ∧
    (∃ u, (processSSELine parse s line).fullContent = s.fullContent ++ u) ∧
    (((processSSELine parse s line).streamFinalized = s.streamFinalized ∧
      (processSSELine parse s line).finalizeRuns = s.finalizeRuns ∧
      (processSSELine parse s line).messages = s.messages ∧
      (processSSELine parse s line).isLoading = s.isLoading) ∨
     ((∃ p, parse ((trimWs line).drop 6) = some p ∧ p.done = true) ∧
      s.streamFinalized = false ∧
      (processSSELine parse s line).streamFinalized = true ∧
      (processSSELine parse s line).finalizeRuns = s.finalizeRuns + 1 ∧
      (processSSELine parse s line).isLoading = false ∧
      (processSSELine parse s line).streamingContent = [] ∧
      (processSSELine parse s line).thinkingStatus = none ∧
      (processSSELine parse s line).messages = s.messages ++
        (if hasNonWs ((processSSELine parse s line).fullContent) = true
         then [⟨Role.assistant, (processSSELine parse s line).fullContent⟩]
         else []))) := by
  simp only [processSSELine]
  by_cases h1 : startsWithL (trimWs line) (str "data: ") = true
  · rw [if_neg (not_not_intro h1)]
    by_cases h2 : (trimWs line).drop 6 = str "[DONE]"
    · rw [if_pos h2]
      exact ⟨rfl, rfl, ⟨[], by simp⟩, Or.inl ⟨rfl, rfl, rfl, rfl⟩⟩
    · rw [if_neg h2]
      cases hp : parse ((trimWs line).drop 6) with
      | none => exact ⟨rfl, rfl, ⟨[], by simp⟩, Or.inl ⟨rfl, rfl, rfl, rfl⟩⟩
      | some p =>
          dsimp only
          obtain ⟨a1, a2, a3, a4⟩ := processParsed_step p s
          refine ⟨a1, a2, a3, ?_⟩
          cases a4 with
          | inl h => exact Or.inl h
          | inr h =>
              exact Or.inr ⟨⟨p, rfl, h.1⟩, h.2.1, h.2.2.1, h.2.2.2.1,
                h.2.2.2.2.1, h.2.2.2.2.2.1, h.2.2.2.2.2.2.1, h.2.2.2.2.2.2.2⟩
  · rw [if_pos h1]
    exact ⟨rfl, rfl, ⟨[], by simp⟩, Or.inl ⟨rfl, rfl, rfl, rfl⟩⟩

/-! ## Run-level invariants of one `sendMessage` stream consumption -/

theorem hasNonWs_append_left (c u : List Nat) (h : hasNonWs c = true) :
    hasNonWs (c ++ u) = true := by
  unfold hasNonWs at *
  rw [List.any_append, h, Bool.true_or]

/-- Invariant of a send whose history started at `m0` (the state right
after the optimistic user append): as long as the stream is not
finalized, the finalize body has never run and no message was appended;
once finalized, the body ran exactly once and at most one assistant
message — whose content was the buffer at finalize time, hence a
non-whitespace prefix of the final buffer — was appended. -/
def SendInv (m0 : List Message) (s : ChatState) : Prop :=
  (s.streamFinalized = false → s.finalizeRuns = 0 ∧ s.messages = m0) ∧
  (s.streamFinalized = true → s.finalizeRuns ≤ 1 ∧
     (s.messages = m0 ∨ ∃ c, hasNonWs c = true ∧
        (∃ u, s.fullContent = c ++ u) ∧
        s.messages = m0 ++ [⟨Role.assistant, c⟩]))

theorem sendInv_step (parse : List Nat → Option Envelope) (m0 : List Message)
    (s : ChatState) (line : List Nat) (h : SendInv m0 s) :
    SendInv m0 (processSSELine parse s line) := by
  obtain ⟨hfalse, htrue⟩ := h
  obtain ⟨_, _, ⟨u, hfull⟩, hcases⟩ := processSSELine_step parse s line
  cases hcases with
  | inl hl =>
      obtain ⟨hsf, hfr, hm, _⟩ := hl
      constructor
      · intro hf
        rw [hsf] at hf
        obtain ⟨h1, h2⟩ := hfalse hf
        exact ⟨hfr.trans h1, hm.trans h2⟩
      · intro ht
        rw [hsf] at ht
        obtain ⟨h1, h2⟩ := htrue ht
        refine ⟨by rw [hfr]; exact h1, ?_⟩
        cases h2 with
        | inl hm0 => exact Or.inl (hm.trans hm0)
        | inr hex =>
            obtain ⟨c, hc, ⟨u2, hu2⟩, hmm⟩ := hex
            exact Or.inr ⟨c, hc,
              ⟨u2 ++ u, by rw [hfull, hu2, List.append_assoc]⟩, hm.trans hmm⟩
  | inr hr =>
      obtain ⟨_, hsf0, hsf1, hfr, _, _, _, hmsg⟩ := hr
      obtain ⟨h1, h2⟩ := hfalse hsf0
      constructor
      · intro hf
        rw [hsf1] at hf
        exact absurd hf (by simp)
      · intro _
        refine ⟨by rw [hfr, h1], ?_⟩
        by_cases hnw : hasNonWs ((processSSELine parse s line).fullContent) = true
        · exact Or.inr ⟨(processSSELine parse s line).fullContent, hnw,
            ⟨[], by simp⟩, by rw [hmsg, h2]; simp [hnw]⟩
        · left
          rw [hmsg, h2]
          simp [hnw]

theorem processLines_cons (parse : List Nat → Option Envelope) (s : ChatState)
    (l : List Nat) (t : List (List Nat)) :
    processLines parse s (l :: t) = processLines parse (processSSELine parse s l) t := by
  simp [processLines]

theorem sendInv_processLines (parse : List Nat → Option Envelope)
    (m0 : List Message) (s : ChatState) (lines : List (List Nat))
    (h : SendInv m0 s) : SendInv m0 (processLines parse s lines) := by
  induction lines generalizing s with
  | nil => simpa [processLines] using h
  | cons l t ih =>
      rw [processLines_cons]
      exact ih _ (sendInv_step parse m0 s l h)

theorem finishRead_finalized (s : ChatState) :
    (finishRead s).streamFinalized = true := by
  unfold finishRead
  by_cases h : s.streamFinalized = true
  · simp [h]
  · have h' : s.streamFinalized = false := by
      cases hb : s.streamFinalized
      · rfl
      · exact absurd hb h
    rw [if_pos (by simp [h']), finalizeStream_run s _ h']

theorem sendInv_finishRead (m0 : List Message) (s : ChatState)
    (h : SendInv m0 s) : SendInv m0 (finishRead s) := by
  obtain ⟨hfalse, htrue⟩ := h
  unfold finishRead
  by_cases hsf : s.streamFinalized = true
  · simpa [hsf] using ⟨hfalse, htrue⟩
  · have h' : s.streamFinalized = false := by
      cases hb : s.streamFinalized
      · rfl
      · exact absurd hb hsf
    obtain ⟨h1, h2⟩ := hfalse h'
    rw [if_pos (by simp [h']), finalizeStream_run s _ h']
    constructor
    · intro hf
      exact absurd hf (by simp)
    · intro _
      refine ⟨by simp [h1], ?_⟩
      by_cases hnw : hasNonWs s.fullContent = true
      · exact Or.inr ⟨s.fullContent, hnw, ⟨[], by simp⟩, by rw [h2]; simp [hnw]⟩
      · left
        rw [h2]
        simp [hnw]

/-- When no processed line carries a truthy `done`, the line loop never
finalizes: the finalization state, messages, error, and loading flag all
survive untouched to the reader-exhaustion branch. -/
theorem processLines_no_done (parse : List Nat → Option Envelope)
    (s : ChatState) (lines : List (List Nat))
    (h : ∀ l ∈ lines, ∀ p, parse ((trimWs l).drop 6) = some p → p.done = false)
    (hsf : s.streamFinalized = false) :
    (processLines parse s lines).streamFinalized = false ∧
    (processLines parse s lines).messages = s.messages ∧
    (processLines parse s lines).finalizeRuns = s.finalizeRuns ∧
    (processLines parse s lines).error = s.error ∧
    (processLines parse s lines).isLoading = s.isLoading := by
  induction lines generalizing s with
  | nil => simpa [processLines] using hsf
  | cons l t ih =>
      rw [processLines_cons]
      obtain ⟨he, _, _, hcases⟩ := processSSELine_step parse s l
      cases hcases with
      | inl hl =>
          obtain ⟨hsf', hfr, hm, hld⟩ := hl
          have ht : ∀ l' ∈ t, ∀ p, parse ((trimWs l').drop 6) = some p →
              p.done = false :=
            fun l' hl' p hp => h l' (List.mem_cons_of_mem l hl') p hp
          obtain ⟨r1, r2, r3, r4, r5⟩ :=
            ih (processSSELine parse s l) ht (hsf'.trans hsf)
          exact ⟨r1, r2.trans hm, r3.trans hfr, r4.trans he, r5.trans hld⟩
      | inr hr =>
          obtain ⟨⟨p, hp, hdone⟩, _⟩ := hr
          exact absurd hdone (by simp [h l (List.mem_cons_self l t) p hp])

/-! ## Typewriter machine lemmas -/

theorem twFrame_unscheduled (m : TWMachine) (h : m.frameScheduled = false) :
    twFrame m = m := by
  unfold twFrame
  rw [if_neg (by simp [h])]

/-- A machine with no scheduled frame never advances again on animation
frames alone. -/
theorem twFrames_unscheduled (m : TWMachine) (h : m.frameScheduled = false)
    (k : Nat) : twFrames m k = m := by
  induction k with
  | zero => rfl
  | succ k ih =>
      show twFrames (twFrame m) k = m
      rw [twFrame_unscheduled m h]
      exact ih

/-- The faithful machine never overshoots: the displayed content is the
`displayedLength`-prefix of the current target. -/
def TWMInv (m : TWMachine) : Prop :=
  m.displayedLength ≤ m.target.length ∧
  m.displayedContent = m.target.take m.displayedLength

theorem twFrame_inv (m : TWMachine) (h : TWMInv m) : TWMInv (twFrame m) := by
  obtain ⟨hlen, hcontent⟩ := h
  unfold twFrame
  by_cases hs : m.frameScheduled = true
  · rw [if_pos hs]
    by_cases hc : m.target.length ≤ m.displayedLength
    · rw [if_pos hc]
      exact ⟨hlen, hcontent⟩
    · rw [if_neg hc]
      refine ⟨by simp; omega, by simp⟩
  · rw [if_neg hs]
    exact ⟨hlen, hcontent⟩

theorem twSetContent_inv (m : TWMachine) (t : List Nat) (h : TWMInv m)
    (hp : m.target <+: t ∨ t = []) : TWMInv (twSetContent m t) := by
  obtain ⟨hlen, hcontent⟩ := h
  unfold twSetContent
  by_cases ht : t = []
  · rw [if_pos ht]
    exact ⟨by simp, by simp⟩
  · rw [if_neg ht]
    have hp' : m.target <+: t := hp.resolve_right ht
    obtain ⟨r, hr⟩ := hp'
    subst hr
    by_cases hg : (!m.isActive && decide (m.displayedLength < (m.target ++ r).length)) = true
    · rw [if_pos hg]
      refine ⟨by simp; omega, ?_⟩
      simpa [List.take_append_of_le_length hlen] using hcontent
    · rw [if_neg hg]
      refine ⟨by simp; omega, ?_⟩
      simpa [List.take_append_of_le_length hlen] using hcontent

/-! ## Claim theorems -/

/-- Counterexample for C1 as stated: a session switch whose
`restoreSession` fails, arriving while a send is mid-stream, is a
terminal event (the in-flight stream is aborted), yet afterwards the
streaming buffer is neither committed to history nor cleared to empty —
it survives, visible, in the old view — because every clearing update in
`switchSession` is guarded by a successful restore, and the aborted
send's `AbortError` branch clears only `isLoading` and
`thinkingStatus`. -/
theorem session_switch_failed_buffer_survives :
    (applyTerminal midStreamState
        TerminalEvent.sessionSwitchFailed).streamingContent = str "Hello" ∧
    (applyTerminal midStreamState
        TerminalEvent.sessionSwitchFailed).streamingContent ≠ [] ∧
    (applyTerminal midStreamState
        TerminalEvent.sessionSwitchFailed).messages = [⟨Role.user, str "hi"⟩] ∧
    (applyTerminal midStreamState
        TerminalEvent.sessionSwitchFailed).isLoading = false :=
  ⟨by decide, by decide, by decide, by decide⟩

/-- C1 (amended): after stream completion (the `finalizeStream`
invocation, made only while the send is not yet finalized), a stream
error, a user-triggered cancel, or a session switch whose restore
succeeds, the streaming buffer is either committed to history as an
assistant `Message` (completion with non-whitespace content) or cleared
to empty, and a successful switch installs exactly the restored
session's transcript, so pre-switch buffer content never appears in the
newly loaded session's view.  A session switch whose `restoreSession`
fails leaves the aborted send's buffer in place — neither committed nor
cleared.  Every terminal event leaves `isLoading` false, so the buffer
is never left non-empty while `isLoading` remains true. -/
theorem terminal_events_clear_or_commit_buffer (s : ChatState)
    (ev : TerminalEvent)
    (hcomp : ev = TerminalEvent.completion → s.streamFinalized = false) :
    (applyTerminal s ev).isLoading = false ∧
    (ev ≠ TerminalEvent.sessionSwitchFailed →
      (applyTerminal s ev).streamingContent = []) ∧
    (ev = TerminalEvent.completion → hasNonWs s.fullContent = true →
      (applyTerminal s ev).messages =
        s.messages ++ [⟨Role.assistant, s.fullContent⟩]) ∧
    (∀ sess, ev = TerminalEvent.sessionSwitch sess →
      (applyTerminal s ev).messages = sess.messages) ∧
    (ev = TerminalEvent.sessionSwitchFailed →
      (applyTerminal s ev).streamingContent = s.streamingContent ∧
      (applyTerminal s ev).messages = s.messages) := by
  cases ev with
  | completion =>
      have hsf := hcomp rfl
      unfold applyTerminal
      rw [finalizeStream_run s _ hsf]
      refine ⟨by simp, fun _ => by simp, ?_, ?_, ?_⟩
      · intro _ hnw
        simp [hnw]
      · intro sess h
        cases h
      · intro h
        cases h
  | streamError msg =>
      unfold applyTerminal streamErrorState
      refine ⟨rfl, fun _ => rfl, ?_, ?_, ?_⟩
      · intro h; cases h
      · intro sess h; cases h
      · intro h; cases h
  | userCancel =>
      unfold applyTerminal abortHandler cancelStream
      refine ⟨rfl, fun _ => rfl, ?_, ?_, ?_⟩
      · intro h; cases h
      · intro sess h; cases h
      · intro h; cases h
  | sessionSwitch sess =>
      unfold applyTerminal switchSessionApply abortHandler
      refine ⟨rfl, fun _ => rfl, ?_, ?_, ?_⟩
      · intro h; cases h
      · intro sess' h
        cases h
        rfl
      · intro h; cases h
  | sessionSwitchFailed =>
      unfold applyTerminal abortHandler
      refine ⟨rfl, ?_, ?_, ?_, ?_⟩
      · intro h
        exact absurd rfl h
      · intro h; cases h
      · intro sess h; cases h
      · intro _
        exact ⟨rfl, rfl⟩

/-- Witness for C1 (amended): completion of a concrete mid-stream send
commits the buffer and clears the streaming state. -/
theorem terminal_events_clear_or_commit_buffer_witness :
    (applyTerminal midStreamState TerminalEvent.completion).isLoading = false ∧
    (applyTerminal midStreamState TerminalEvent.completion).streamingContent = [] ∧
    (applyTerminal midStreamState TerminalEvent.completion).messages =
      midStreamState.messages ++ [⟨Role.assistant, midStreamState.fullContent⟩] :=
  have h := terminal_events_clear_or_commit_buffer midStreamState
    TerminalEvent.completion (fun _ => rfl)
  ⟨h.1, h.2.1 (by simp), h.2.2.1 rfl (by decide)⟩

/-- C2 (code-bug evidence): extending the target mid-animation
permanently stalls the typewriter.  From the initial machine, deliver
content `"ab"`, let one due frame reveal `"a"`, then extend the content
to `"abc"` while the loop is active: the effect cleanup cancels the
pending animation frame while `isActiveRef.current` stays `true`, and
the `!isActiveRef.current` restart guard blocks rescheduling — so no
number of further animation frames ever advances the display.  It stays
`"a"`, strictly short of the final target `"abc"`, contradicting the
claim's convergence (and the hook's own documentation, which promises it
"catches up naturally when stream is faster than typing"); the displayed
content does remain a prefix of the target throughout
(`twFrame_inv` / `twSetContent_inv`). -/
theorem typewriter_stalls_after_mid_animation_extension (k : Nat) :
    (twFrames (twSetContent twMidAnim (str "abc")) k).displayedContent =
      str "a" ∧
    (twFrames (twSetContent twMidAnim (str "abc")) k).displayedContent ≠
      (twSetContent twMidAnim (str "abc")).target ∧
    (twSetContent twMidAnim (str "abc")).target = str "abc" ∧
    (twSetContent twMidAnim (str "abc")).displayedLength <
      (twSetContent twMidAnim (str "abc")).target.length := by
  have hsch : (twSetContent twMidAnim (str "abc")).frameScheduled = false := by
    decide
  rw [twFrames_unscheduled _ hsch k]
  exact ⟨by decide, by decide, by decide, by decide⟩

/-- C3: the ordered sequence of lines the read loop hands to
`processSSELine` — and hence the ordered sequence of parsed events, which
is a function of those lines — is the same for every partition of a
well-formed UTF-8 byte stream into read chunks, including partitions that
split inside a multi-byte character or in the middle of a `data:` line. -/
theorem stream_decoding_chunking_invariant (chunks₁ chunks₂ : List (List Nat))
    (cs : List Nat)
    (h₁ : chunks₁.flatten = utf8EncodeAll cs)
    (h₂ : chunks₂.flatten = utf8EncodeAll cs)
    (_hcs : ∀ c ∈ cs, c < 0x110000) :
    runReadLoop chunks₁ = runReadLoop chunks₂ ∧
    (∀ (E : Type) (ev : List Nat → E),
      (runReadLoop chunks₁).map ev = (runReadLoop chunks₂).map ev) ∧
    (∀ (parse : List Nat → Option Envelope) (s₀ : ChatState),
      processLines parse s₀ (runReadLoop chunks₁) =
        processLines parse s₀ (runReadLoop chunks₂)) := by
  have key : runReadLoop chunks₁ = runReadLoop chunks₂ := by
    unfold runReadLoop
    rw [foldl_readChunk, foldl_readChunk, h₁, h₂]
  exact ⟨key, fun E ev => by rw [key], fun parse s₀ => by rw [key]⟩

/-- Witness for C3: the bytes of `"dé\nh"` split inside the two-byte
encoding of `é` versus delivered whole. -/
theorem stream_decoding_chunking_invariant_witness :
    runReadLoop [[100, 195], [169, 10, 104]] =
      runReadLoop [[100, 195, 169, 10, 104]] :=
  (stream_decoding_chunking_invariant [[100, 195], [169, 10, 104]]
    [[100, 195, 169, 10, 104]] (str "dé\nh")
    (by decide) (by decide) (by decide)).1

/-- C5: citation events of a send are recorded under the captured
`currentMessageIndex + 1`, where `currentMessageIndex = messages.length`
is captured into the send's closure before the optimistic user append
and before any stream `await`; the key equals the history length right
after the synchronous user append — the prospective index of the
assistant message this send will commit — and no interleaved new send or
session switch changes the key under which the in-flight stream's
citations land. -/
theorem citations_captured_index_stable (g₀ : CitGlobal) (msg : List Nat)
    (evs : List CitEvent) (cits : List Citation) :
    (citStep (evs.foldl citStep (citSendStart g₀ msg).1)
        (CitEvent.citations (citSendStart g₀ msg).2 cits)).messageCitations
      (g₀.messages.length + 1) = some cits ∧
    (citSendStart g₀ msg).2.currentMessageIndex = g₀.messages.length ∧
    (citSendStart g₀ msg).1.messages.length = g₀.messages.length + 1 ∧
    (∀ c, ((citSendStart g₀ msg).1.messages ++
        [⟨Role.assistant, c⟩])[g₀.messages.length + 1]? =
      some ⟨Role.assistant, c⟩) := by
  refine ⟨?_, rfl, by simp [citSendStart], ?_⟩
  · simp [citStep, recordCitations, citSendStart]
  · intro c
    have hlen : (citSendStart g₀ msg).1.messages.length =
        g₀.messages.length + 1 := by simp [citSendStart]
    rw [← hlen]
    exact List.getElem?_concat_length _ _

theorem retryLoop_unfold {T : Type} (op : Nat → Except JsError T)
    (maxAttempts maxDelay backoffMultiplier attempt delay : Nat)
    (lastErr : Option JsError) (attempts sleeps : List Nat) (stAttempt : Nat) :
    retryLoop op maxAttempts maxDelay backoffMultiplier attempt delay lastErr
        attempts sleeps stAttempt =
      if maxAttempts < attempt then
        ⟨attempts, sleeps, stAttempt, .error (lastErr.getD maxRetriesError)⟩
      else
        match op attempt with
        | .ok v => ⟨attempts ++ [attempt], sleeps, attempt, .ok v⟩
        | .error e =>
          if !isRetryableError e || decide (maxAttempts ≤ attempt) then
            ⟨attempts ++ [attempt], sleeps, attempt, .error e⟩
          else
            retryLoop op maxAttempts maxDelay backoffMultiplier (attempt + 1)
              (min (delay * backoffMultiplier) maxDelay) (some e)
              (attempts ++ [attempt]) (sleeps ++ [delay]) attempt := by
  rw [retryLoop]
  split_ifs <;> rfl

/-- An error whose `status` field is 503 is classified retryable (HTTP
5xx branch of `isRetryableError`). -/
theorem status_503_retryable (e : JsError) (h : e.status = some 503) :
    isRetryableError e = true := by
  unfold isRetryableError
  rw [h]
  split_ifs with a b c d f <;> simp_all [natTruthy]

/-- C4: with `maxAttempts = 3` and an operation failing on attempts 1 and
2 with HTTP-503-classified errors and succeeding on attempt 3,
`executeWithRetry` returns the success value with `attempt = 3` reported
in the retry state, having invoked the operation exactly at attempts 1, 2
and 3; with `maxAttempts = 2` it throws the second failure's error after
exactly two invocations — never a third; and a non-retryable error
propagates immediately after the single first attempt, with no backoff
wait. -/
theorem executeWithRetry_contract {T : Type} (op opf : Nat → Except JsError T)
    (v : T) (e1 e2 f : JsError)
    (h1 : op 1 = .error e1) (h2 : op 2 = .error e2) (h3 : op 3 = .ok v)
    (hs1 : e1.status = some 503) (hs2 : e2.status = some 503)
    (hf : isRetryableError f = false) (hopf : opf 1 = .error f)
    (d0 dm bm : Nat) :
    ((executeWithRetry op 3 d0 dm bm).outcome = .ok v ∧
     (executeWithRetry op 3 d0 dm bm).finalAttempt = 3 ∧
     (executeWithRetry op 3 d0 dm bm).attemptsMade = [1, 2, 3]) ∧
    ((executeWithRetry op 2 d0 dm bm).outcome = .error e2 ∧
     (executeWithRetry op 2 d0 dm bm).attemptsMade = [1, 2]) ∧
    ((executeWithRetry opf 3 d0 dm bm).outcome = .error f ∧
     (executeWithRetry opf 3 d0 dm bm).attemptsMade = [1] ∧
     (executeWithRetry opf 3 d0 dm bm).sleeps = []) := by
  have hr1 := status_503_retryable e1 hs1
  have hr2 := status_503_retryable e2 hs2
  refine ⟨?_, ?_, ?_⟩
  · have e : executeWithRetry op 3 d0 dm bm =
        ⟨[1, 2, 3], [d0, min (d0 * bm) dm], 3, .ok v⟩ := by
      unfold executeWithRetry
      rw [retryLoop_unfold]
      simp only [h1, hr1]
      norm_num
      rw [retryLoop_unfold]
      simp only [h2, hr2]
      norm_num
      rw [retryLoop_unfold]
      simp only [h3]
      norm_num
    rw [e]
    exact ⟨rfl, rfl, rfl⟩
  · have e : executeWithRetry op 2 d0 dm bm = ⟨[1, 2], [d0], 2, .error e2⟩ := by
      unfold executeWithRetry
      rw [retryLoop_unfold]
      simp only [h1, hr1]
      norm_num
      rw [retryLoop_unfold]
      simp only [h2, hr2]
      norm_num
    rw [e]
    exact ⟨rfl, rfl⟩
  · have e : executeWithRetry opf 3 d0 dm bm = ⟨[1], [], 1, .error f⟩ := by
      unfold executeWithRetry
      rw [retryLoop_unfold]
      simp only [hopf, hf]
      norm_num
    rw [e]
    exact ⟨rfl, rfl, rfl⟩

/-- Witness for C4 at a concrete operation: 503 on the first two
attempts, success value 42 on the third; and a concrete fatal HTTP 400
error. -/
theorem executeWithRetry_contract_witness :
    (executeWithRetry
        (fun n => if n = 3 then Except.ok 42
          else Except.error { status := some 503 : JsError }) 3 2000 30000 2).outcome =
      Except.ok 42 ∧
    (executeWithRetry
        (fun n => if n = 3 then Except.ok 42
          else Except.error { status := some 503 : JsError }) 3 2000 30000 2).finalAttempt = 3 ∧
    (executeWithRetry
        (fun n => if n = 3 then Except.ok 42
          else Except.error { status := some 503 : JsError }) 3 2000 30000 2).attemptsMade =
      [1, 2, 3] :=
  (executeWithRetry_contract
    (fun n => if n = 3 then Except.ok 42
      else Except.error { status := some 503 : JsError })
    (fun _ => Except.error { status := some 400, message := str "Bad Request" })
    42 { status := some 503 } { status := some 503 }
    { status := some 400, message := str "Bad Request" }
    (by rfl) (by rfl) (by rfl) (by decide) (by decide)
    (by decide) (by rfl) 2000 30000 2).1

/-- Counterexample for C6 as stated: a stream delivering one content
delta `" "` (whitespace only) and then exhausting without any terminator
accumulates non-empty content, yet no assistant `Message` is committed —
`finalizeStream` skips the commit because `content.trim()` is falsy.
Finalization itself does run (state cleared, loading false). -/
theorem reader_exhaustion_whitespace_not_committed :
    (runSend toyParse (sendStart emptyChatState (str "hi"))
        [str "data: pws"]).fullContent ≠ [] ∧
    (runSend toyParse (sendStart emptyChatState (str "hi"))
        [str "data: pws"]).messages = [⟨Role.user, str "hi"⟩] ∧
    (runSend toyParse (sendStart emptyChatState (str "hi"))
        [str "data: pws"]).streamFinalized = true ∧
    (runSend toyParse (sendStart emptyChatState (str "hi"))
        [str "data: pws"]).isLoading = false := by
  refine ⟨by decide, by decide, by decide, by decide⟩

/-- C6 (amended): if the reader reports done without any `[DONE]`
sentinel or truthy `done` event having been seen, finalization is still
triggered exactly once: the streaming buffer and thinking status are
cleared, the loading flag becomes false, and the missing terminator is
not treated as an error (`error` stays `none`); the accumulated content
is committed as an assistant `Message` provided its trim is non-empty —
whitespace-only accumulated content is discarded without a commit. -/
theorem reader_exhaustion_finalizes (parse : List Nat → Option Envelope)
    (s₀ : ChatState) (msg : List Nat) (lines : List (List Nat))
    (hnodone : ∀ l ∈ lines, ∀ p,
      parse ((trimWs l).drop 6) = some p → p.done = false) :
    (runSend parse (sendStart s₀ msg) lines).streamFinalized = true ∧
    (runSend parse (sendStart s₀ msg) lines).streamingContent = [] ∧
    (runSend parse (sendStart s₀ msg) lines).thinkingStatus = none ∧
    (runSend parse (sendStart s₀ msg) lines).isLoading = false ∧
    (runSend parse (sendStart s₀ msg) lines).error = none ∧
    (runSend parse (sendStart s₀ msg) lines).finalizeRuns = 1 ∧
    (hasNonWs (runSend parse (sendStart s₀ msg) lines).fullContent = true →
      (runSend parse (sendStart s₀ msg) lines).messages =
        (sendStart s₀ msg).messages ++
          [⟨Role.assistant, (runSend parse (sendStart s₀ msg) lines).fullContent⟩]) ∧
    (hasNonWs (runSend parse (sendStart s₀ msg) lines).fullContent = false →
      (runSend parse (sendStart s₀ msg) lines).messages =
        (sendStart s₀ msg).messages) := by
  have hsf0 : (sendStart s₀ msg).streamFinalized = false := rfl
  obtain ⟨n1, n2, n3, n4, n5⟩ :=
    processLines_no_done parse (sendStart s₀ msg) lines hnodone hsf0
  have hrun : runSend parse (sendStart s₀ msg) lines =
      finalizeStream (processLines parse (sendStart s₀ msg) lines)
        (processLines parse (sendStart s₀ msg) lines).fullContent := by
    unfold runSend finishRead
    rw [if_pos (by simp [n1])]
  rw [hrun, finalizeStream_run _ _ n1]
  have hruns : (sendStart s₀ msg).finalizeRuns = 0 := rfl
  have herr : (sendStart s₀ msg).error = none := rfl
  refine ⟨by simp, by simp, by simp, by simp, by simp [n4, herr],
    by simp [n3, hruns], ?_, ?_⟩
  · intro hnw
    simp only at hnw ⊢
    simp [hnw, n2]
  · intro hnw
    simp only at hnw ⊢
    simp [hnw, n2]

/-- Witness for C6 (amended): a single content delta `"Hello"` and then
reader exhaustion with no terminator. -/
theorem reader_exhaustion_finalizes_witness :
    (runSend toyParse (sendStart emptyChatState (str "hi"))
        [str "data: pa"]).streamFinalized = true ∧
    (runSend toyParse (sendStart emptyChatState (str "hi"))
        [str "data: pa"]).streamingContent = [] ∧
    (runSend toyParse (sendStart emptyChatState (str "hi"))
        [str "data: pa"]).thinkingStatus = none :=
  have h := reader_exhaustion_finalizes toyParse emptyChatState (str "hi")
    [str "data: pa"]
    (by
      intro l hl p hp
      rw [List.mem_singleton] at hl
      subst hl
      have he : toyParse ((trimWs (str "data: pa")).drop 6) =
          some { content := some (str "Hello") } := by decide
      rw [he] at hp
      cases hp
      rfl)
  ⟨h.1, h.2.1, h.2.2.1⟩

theorem processParsed_fullContent_delta (p : Envelope) (s : ChatState)
    (a : List Nat) (hc : p.content = some a) (hne : a ≠ []) :
    (processParsed p s).fullContent = s.fullContent ++ a := by
  unfold processParsed
  rw [handleDone_fullContent, handleTokens_fullContent,
    handleCompression_fullContent, handleCitations_fullContent,
    handleContent_delta _ _ a hc hne, handleStatus_fullContent,
    handleWarning_fullContent, handleBan_fullContent]

theorem processSSELine_fullContent_delta (parse : List Nat → Option Envelope)
    (s : ChatState) (l : List Nat) (p : Envelope) (a : List Nat)
    (hd : startsWithL (trimWs l) (str "data: ") = true)
    (hn : (trimWs l).drop 6 ≠ str "[DONE]")
    (hp : parse ((trimWs l).drop 6) = some p)
    (hc : p.content = some a) (hne : a ≠ []) :
    (processSSELine parse s l).fullContent = s.fullContent ++ a := by
  simp only [processSSELine]
  rw [if_neg (not_not_intro hd), if_neg hn, hp]
  exact processParsed_fullContent_delta p s a hc hne

/-- C7: a line whose JSON payload fails to parse is swallowed with no
state change at all, so a malformed line between two valid content-delta
lines neither aborts nor corrupts the stream: the run equals the run
without the malformed line, and both deltas are appended to the
accumulating buffer in their original order. -/
theorem malformed_line_swallowed (parse : List Nat → Option Envelope)
    (s : ChatState) (l1 lb l2 : List Nat) (pa pb : Envelope) (a b : List Nat)
    (h1d : startsWithL (trimWs l1) (str "data: ") = true)
    (h1n : (trimWs l1).drop 6 ≠ str "[DONE]")
    (h1p : parse ((trimWs l1).drop 6) = some pa)
    (hca : pa.content = some a) (hane : a ≠ [])
    (h2d : startsWithL (trimWs l2) (str "data: ") = true)
    (h2n : (trimWs l2).drop 6 ≠ str "[DONE]")
    (h2p : parse ((trimWs l2).drop 6) = some pb)
    (hcb : pb.content = some b) (hbne : b ≠ [])
    (hbd : startsWithL (trimWs lb) (str "data: ") = true)
    (hbn : (trimWs lb).drop 6 ≠ str "[DONE]")
    (hbp : parse ((trimWs lb).drop 6) = none) :
    processSSELine parse s lb = s ∧
    processLines parse s [l1, lb, l2] = processLines parse s [l1, l2] ∧
    (processLines parse s [l1, lb, l2]).fullContent = s.fullContent ++ a ++ b := by
  have swallow : ∀ s' : ChatState, processSSELine parse s' lb = s' := by
    intro s'
    simp only [processSSELine]
    rw [if_neg (not_not_intro hbd), if_neg hbn, hbp]
  have hruns : processLines parse s [l1, lb, l2] = processLines parse s [l1, l2] := by
    simp only [processLines, List.foldl_cons, List.foldl_nil]
    rw [swallow]
  refine ⟨swallow s, hruns, ?_⟩
  rw [hruns, processLines_cons, processLines_cons]
  have e1 := processSSELine_fullContent_delta parse s l1 pa a h1d h1n h1p hca hane
  have e2 := processSSELine_fullContent_delta parse (processSSELine parse s l1)
    l2 pb b h2d h2n h2p hcb hbne
  simp only [processLines, List.foldl_nil]
  rw [e2, e1]

/-- Witness for C7: `data: \x7bnot valid json` between the two deltas
`"Hello"` and `" world"` of a concrete send. -/
theorem malformed_line_swallowed_witness :
    (processLines toyParse (sendStart emptyChatState (str "hi"))
        [str "data: pa", str "data: \x7bnot valid json", str "data: pb"]).fullContent =
      (sendStart emptyChatState (str "hi")).fullContent ++ str "Hello" ++ str " world" :=
  (malformed_line_swallowed toyParse (sendStart emptyChatState (str "hi"))
    (str "data: pa") (str "data: \x7bnot valid json") (str "data: pb")
    { content := some (str "Hello") } { content := some (str " world") }
    (str "Hello") (str " world")
    (by decide) (by decide) (by decide) (by decide) (by decide)
    (by decide) (by decide) (by decide) (by decide) (by decide)
    (by decide) (by decide) (by decide)).2.2

/-- C8: deleting the currently active session, when the backend DELETE
succeeds, moves the orchestrator to the deferred-creation state — empty
history, no active session id, pending-new-session flag set, persisted id
removed — and `deleteSession` never creates a replacement session (no
create-session call appears among its effects, for any input). -/
theorem deleteSession_active_deferred (s : ChatState) (id : List Nat)
    (hactive : s.sessionId = some id) :
    (deleteSession s id true).1.messages = [] ∧
    (deleteSession s id true).1.sessionId = none ∧
    (deleteSession s id true).1.isPendingNewSession = true ∧
    (deleteSession s id true).1.persistedSessionId = none ∧
    Effect.backendCreateSession ∉ (deleteSession s id true).2 ∧
    (∀ (s' : ChatState) (id' : List Nat) (ok : Bool),
      Effect.backendCreateSession ∉ (deleteSession s' id' ok).2) := by
  have he : deleteSession s id true =
      ({ s with
          sessionId := none
          messages := []
          isPendingNewSession := true
          persistedSessionId := none },
       [Effect.backendDeleteSession id, Effect.backendListSessions]) := by
    unfold deleteSession
    rw [if_pos rfl, if_pos hactive]
  rw [he]
  refine ⟨rfl, rfl, rfl, rfl, by simp, ?_⟩
  intro s' id' ok
  unfold deleteSession
  split_ifs <;> simp

/-- Witness for C8 at a concrete active session. -/
theorem deleteSession_active_deferred_witness :
    (deleteSession { emptyChatState with sessionId := some (str "s1") }
        (str "s1") true).1.messages = [] ∧
    (deleteSession { emptyChatState with sessionId := some (str "s1") }
        (str "s1") true).1.sessionId = none ∧
    (deleteSession { emptyChatState with sessionId := some (str "s1") }
        (str "s1") true).1.isPendingNewSession = true :=
  have h := deleteSession_active_deferred
    { emptyChatState with sessionId := some (str "s1") } (str "s1") rfl
  ⟨h.1, h.2.1, h.2.2.1⟩

/-- C9: within one `sendMessage` invocation, however many times
finalization is triggered across the processed lines and the
reader-exhaustion fallback, the body of `finalizeStream` executes at most
once, at most one assistant `Message` is appended to history beyond the
optimistic user message, and if the accumulated content is empty or
whitespace-only no assistant `Message` is appended at all. -/
theorem finalize_body_at_most_once (parse : List Nat → Option Envelope)
    (s₀ : ChatState) (msg : List Nat) (lines : List (List Nat)) :
    (runSend parse (sendStart s₀ msg) lines).finalizeRuns ≤ 1 ∧
    ((runSend parse (sendStart s₀ msg) lines).messages =
        (sendStart s₀ msg).messages ∨
      ∃ c, hasNonWs c = true ∧
        (runSend parse (sendStart s₀ msg) lines).messages =
          (sendStart s₀ msg).messages ++ [⟨Role.assistant, c⟩]) ∧
    (hasNonWs (runSend parse (sendStart s₀ msg) lines).fullContent = false →
      (runSend parse (sendStart s₀ msg) lines).messages =
        (sendStart s₀ msg).messages) := by
  have hinv0 : SendInv (sendStart s₀ msg).messages (sendStart s₀ msg) := by
    constructor
    · intro _
      exact ⟨rfl, rfl⟩
    · intro h
      exact absurd h (by simp [sendStart])
  have hinv : SendInv (sendStart s₀ msg).messages
      (runSend parse (sendStart s₀ msg) lines) :=
    sendInv_finishRead _ _
      (sendInv_processLines parse _ (sendStart s₀ msg) lines hinv0)
  have hfin : (runSend parse (sendStart s₀ msg) lines).streamFinalized = true :=
    finishRead_finalized _
  obtain ⟨_, htrue⟩ := hinv
  obtain ⟨hruns, hmsgs⟩ := htrue hfin
  refine ⟨hruns, ?_, ?_⟩
  · cases hmsgs with
    | inl h => exact Or.inl h
    | inr h =>
        obtain ⟨c, hc, _, hm⟩ := h
        exact Or.inr ⟨c, hc, hm⟩
  · intro hnw
    cases hmsgs with
    | inl h => exact h
    | inr h =>
        obtain ⟨c, hc, ⟨u, hu⟩, _⟩ := h
        have : hasNonWs ((runSend parse (sendStart s₀ msg) lines).fullContent) = true := by
          rw [hu]
          exact hasNonWs_append_left c u hc
        rw [this] at hnw
        cases hnw

/-- C10: `createNewConversation` is a no-op when the current conversation
is already empty — a pending new session with zero messages, or a truthy
active session id with zero messages, returns immediately with the state
unchanged and no effects at all (no abort, no state clearing, no backend
call); and `createNewConversation` never issues a create-session call, so
repeated invocations can never produce duplicate empty sessions. -/
theorem createNewConversation_noop_when_empty (s : ChatState)
    (h : (s.isPendingNewSession = true ∧ s.messages = []) ∨
         (jsStr s.sessionId = true ∧ s.messages = [])) :
    createNewConversation s = (s, []) ∧
    (∀ s' : ChatState,
      Effect.backendCreateSession ∉ (createNewConversation s').2) := by
  constructor
  · unfold createNewConversation
    by_cases g1 : (s.isPendingNewSession && s.messages.length == 0) = true
    · rw [if_pos g1]
    · rw [if_neg g1]
      have g2 : (jsStr s.sessionId && s.messages.length == 0) = true := by
        rcases h with ⟨h1, h2⟩ | ⟨h1, h2⟩
        · exact absurd (by simp [h1, h2]) g1
        · simp [h1, h2]
      rw [if_pos g2]
  · intro s'
    unfold createNewConversation
    split_ifs <;> simp

/-- Witness for C10: a deferred-creation state with empty history is left
untouched, with no effects. -/
theorem createNewConversation_noop_when_empty_witness :
    createNewConversation { emptyChatState with isPendingNewSession := true } =
      ({ emptyChatState with isPendingNewSession := true }, []) :=
  (createNewConversation_noop_when_empty
    { emptyChatState with isPendingNewSession := true }
    (Or.inl ⟨rfl, rfl⟩)).1
